import Mathlib

/-!
Shallow embedding of the interact-voice onboarding client: the LiveKit
session hook (`useLiveKit.ts`) and the agent interface component
(`AgentInterface`, `src/unnamed/part_000`).  React state is modelled as
explicit records; `Date.now()` is modelled by a logical clock threaded
through the application state; the external media client's outcomes
(connection success/failure, transport errors on publish) are explicit
parameters.  Published data-channel payloads are collected in a list so
that publish attempts are observable.
-/

namespace InteractVoice

/-- Speaker of a transcript entry (the `speaker` union in `TranscriptMessage`). -/
inductive Speaker
  | user
  | agent
  | system
deriving DecidableEq, Repr

/-- A transcript entry (`TranscriptMessage` in AgentInterface).  `timestamp`
and the numeric part of `id` come from the logical clock standing in for
`Date.now()`.  `isPartial` is optional in the source; absence is modelled as
`false`, matching JS truthiness of `undefined`. -/
structure TranscriptMessage where
  id : String
  text : String
  speaker : Speaker
  timestamp : Nat
  isPartial : Bool := false
deriving DecidableEq, Repr

/-- A transient notification (`toast(\x7b title, description \x7d)`). -/
structure Toast where
  title : String
  description : String
deriving DecidableEq, Repr

/-- Inbound data-channel message (`LiveKitMessage` in useLiveKit.ts).  The
source's `data?.isPartial` and `data?.isSpeaking` sub-fields are flattened;
`none` models an absent field (JS `undefined`, falsy). -/
structure LiveKitMessage where
  type : String
  stage : Option String := none
  transcript : Option String := none
  error : Option String := none
  status : Option String := none
  dataIsPartial : Option Bool := none
  dataIsSpeaking : Option Bool := none
deriving DecidableEq, Repr

/-- The useLiveKit hook's state: `hasRoom` models `roomRef.current !== null`. -/
structure LKState where
  hasRoom : Bool
  isConnected : Bool
  isConnecting : Bool
  participants : List String
  audioTracks : List String
  messages : List LiveKitMessage
  error : Option String
deriving DecidableEq, Repr

/-- The AgentInterface component's state. -/
structure AppState where
  currentStage : String
  transcript : List TranscriptMessage
  isAgentSpeaking : Bool
  isMuted : Bool
  audioEnabled : Bool
  isPaymentProcessing : Bool
  toasts : List Toast
  clock : Nat
deriving DecidableEq, Repr

/-- The combined client state: hook state plus component state. -/
structure SysState where
  lk : LKState
  app : AppState
deriving DecidableEq, Repr

/-- The fixed ordered stage list (`STAGES` in AgentInterface). -/
def STAGES : List String := ["GREETING", "PAYMENT_SELECTION", "NBFC_PROCESS", "RCA_DOCS"]

/-- JavaScript `String.prototype.replace('_', ' ')`: replaces only the first
occurrence of the underscore. -/
def replaceFirstUnderscore : List Char → List Char
  | [] => []
  | c :: cs => if c = '_' then ' ' :: cs else c :: replaceFirstUnderscore cs

/-- `s.replace('_', ' ')` on strings. -/
def jsReplaceUnderscore (s : String) : String :=
  String.mk (replaceFirstUnderscore s.data)

/-- `stage.replace('_', ' ').toLowerCase()`, used in stage system messages
(character-wise ASCII lowering, which agrees with JS on the stage names). -/
def stageLabel (st : String) : String :=
  String.mk ((jsReplaceUnderscore st).data.map Char.toLower)

/-- JavaScript `Array.prototype.indexOf`: 0-based index, `-1` when absent. -/
def jsIndexOf : List String → String → Int
  | [], _ => -1
  | a :: rest, x =>
    if a = x then 0
    else
      let r := jsIndexOf rest x
      if r = -1 then -1 else r + 1

/-- The guard `prev.length > 0 && prev[prev.length - 1].isPartial`. -/
def lastIsPartial (l : List TranscriptMessage) : Bool :=
  match l.getLast? with
  | some e => e.isPartial
  | none => false

/-- Outbound command shapes accepted by `sendData` in this client. -/
inductive Command
  | paymentChoice (selection : String)
  | manualStageChange (stage : String)
deriving DecidableEq, Repr

/-- `JSON.stringify` of the two command object shapes (insertion order of keys). -/
def serializeCommand : Command → String
  | Command.paymentChoice sel =>
    "\x7b\"type\":\"payment_choice\",\"selection\":\"" ++ sel ++ "\"\x7d"
  | Command.manualStageChange st =>
    "\x7b\"type\":\"manual_stage_change\",\"stage\":\"" ++ st ++ "\"\x7d"

/-- `sendData` of useLiveKit.ts.  If there is no room or the hook is not
connected it warns and returns without publishing.  Otherwise it publishes the
serialized command; `transportErr` models whether `publishData` throws, in
which case the error is caught and stored in the hook's error state.  The
second component lists the publish attempts made by the call. -/
def sendData (s : LKState) (cmd : Command) (transportErr : Option String) :
    LKState × List String :=
  if !s.hasRoom || !s.isConnected then (s, [])
  else
    match transportErr with
    | none => (s, [serializeCommand cmd])
    | some e =>
      ({ s with error := some ("Failed to send data: " ++ e) }, [serializeCommand cmd])

/-- Synthetic connection-status message appended by the lifecycle listeners
and by `disconnect`. -/
def statusMsg (st : String) : LiveKitMessage :=
  { type := "connection_status", status := some st }

/-- Outcome of a connection attempt by the external media client: success
(with the remote participants present at connect time) or failure with an
error message. -/
inductive ConnectOutcome
  | success (remotes : List String)
  | failure (msg : String)
deriving DecidableEq, Repr

/-- `connect` of useLiveKit.ts.  No-op when already connecting or connected.
Otherwise: sets `isConnecting`, clears the error, attempts the connection.
On success the `Connected` listener sets `isConnected` and appends the
synthetic "connected" status message, the room is stored (`hasRoom`), and the
participants effect sets the participant list; on failure the catch block
stores `Connection failed: ...` and sets `isConnected := false`.  Either way
the finally block clears `isConnecting`. -/
def connect (s : LKState) (outcome : ConnectOutcome) : LKState :=
  if s.isConnecting || s.isConnected then s
  else
    let s1 := { s with isConnecting := true, error := none }
    match outcome with
    | ConnectOutcome.success remotes =>
      { s1 with isConnected := true
                messages := s1.messages ++ [statusMsg "connected"]
                hasRoom := true
                participants := "local" :: remotes
                isConnecting := false }
    | ConnectOutcome.failure e =>
      { s1 with error := some ("Connection failed: " ++ e)
                isConnected := false
                isConnecting := false }

/-- `disconnect` of useLiveKit.ts: guarded by `if (roomRef.current)`; when a
room exists it tears it down, clears the participant and audio-track lists,
and appends the synthetic "disconnected" status message; otherwise it does
nothing. -/
def disconnect (s : LKState) : LKState :=
  if s.hasRoom then
    { s with hasRoom := false
             isConnected := false
             participants := []
             audioTracks := []
             messages := s.messages ++ [statusMsg "disconnected"] }
  else s

/-- The `RoomEvent.DataReceived` listener: `JSON.parse` the payload and
`addMessage` it; on a parse error, log and drop.  `decoded` is the result of
the decode attempt (`none` = malformed payload). -/
def onDataReceived (s : LKState) (decoded : Option LiveKitMessage) : LKState :=
  match decoded with
  | some m => { s with messages := s.messages ++ [m] }
  | none => s

/-- `handleLiveKitMessage` of AgentInterface: dispatch on `message.type`.
Truthiness guards (`if (message.stage)`, `if (message.transcript)`,
`if (message.error)`) drop empty strings as JS does. -/
def handleLiveKitMessage (s : AppState) (m : LiveKitMessage) : AppState :=
  match m.type with
  | "state_update" =>
    match m.stage with
    | some stage =>
      if stage = "" then s
      else
        let sysMsg : TranscriptMessage :=
          { id := "system-" ++ toString s.clock
            text := "Stage updated: " ++ stageLabel stage
            speaker := Speaker.system
            timestamp := s.clock }
        { s with currentStage := stage
                 transcript := s.transcript ++ [sysMsg]
                 clock := s.clock + 1 }
    | none => s
  | "transcript_update" =>
    match m.transcript with
    | some t =>
      if t = "" then s
      else
        let p := m.dataIsPartial.getD false
        let entry : TranscriptMessage :=
          { id := "transcript-" ++ toString s.clock
            text := t
            speaker := Speaker.agent
            timestamp := s.clock
            isPartial := p }
        let transcript' :=
          if p && lastIsPartial s.transcript then s.transcript.dropLast ++ [entry]
          else s.transcript ++ [entry]
        { s with transcript := transcript'
                 isAgentSpeaking := m.dataIsSpeaking.getD false
                 clock := s.clock + 1 }
    | none => s
  | "connection_status" =>
    if m.status = some "connected" then
      { s with toasts := s.toasts ++ [Toast.mk "Connected" "Voice agent is ready to assist you"] }
    else if m.status = some "disconnected" then
      { s with toasts := s.toasts ++ [Toast.mk "Disconnected" "Connection to voice agent lost"] }
    else s
  | "error" =>
    match m.error with
    | some e =>
      if e = "" then s
      else { s with toasts := s.toasts ++ [Toast.mk "Error" e] }
    | none => s
  | _ => s

/-- Fold of the message handler over a list of messages, each handled once. -/
def processEach (s : AppState) (ms : List LiveKitMessage) : AppState :=
  ms.foldl handleLiveKitMessage s

/-- Arrival of one decoded data-channel message at the full client: the hook
appends it to `messages` (`addMessage`), and the AgentInterface effect
`useEffect(() => messages.forEach(handleLiveKitMessage), [messages])` then
re-runs the handler over the entire accumulated array, not only the new
message. -/
def receiveMessage (sys : SysState) (m : LiveKitMessage) : SysState :=
  let lk' := { sys.lk with messages := sys.lk.messages ++ [m] }
  { lk := lk', app := processEach sys.app lk'.messages }

/-- Arrival of one raw data-channel payload: `decoded` is the result of the
`JSON.parse` attempt; a malformed payload (`none`) is logged and dropped. -/
def receiveRaw (sys : SysState) (decoded : Option LiveKitMessage) : SysState :=
  match decoded with
  | some m => receiveMessage sys m
  | none => sys

/-- `handlePaymentSelect` of AgentInterface: awaits `sendData` (which never
rejects: it catches transport errors internally), appends one user transcript
entry `Selected payment method: <selection.replace('_', ' ')>`, shows a
toast, and resets the processing flag after a timeout. -/
def handlePaymentSelect (sys : SysState) (selection : String)
    (transportErr : Option String) : SysState × List String :=
  let app0 := { sys.app with isPaymentProcessing := true }
  let sd := sendData sys.lk (Command.paymentChoice selection) transportErr
  let userMsg : TranscriptMessage :=
    { id := "user-" ++ toString app0.clock
      text := "Selected payment method: " ++ jsReplaceUnderscore selection
      speaker := Speaker.user
      timestamp := app0.clock }
  let app1 := { app0 with
    transcript := app0.transcript ++ [userMsg]
    toasts := app0.toasts ++
      [Toast.mk "Payment Selection Sent" ("Selected: " ++ jsReplaceUnderscore selection)]
    clock := app0.clock + 1 }
  let app2 := { app1 with isPaymentProcessing := false }
  ({ lk := sd.1, app := app2 }, sd.2)

/-- `goToNextStage` of AgentInterface: `indexOf`-based forward walk, guarded
by `currentIndex < STAGES.length - 1`; on a move it updates the stage,
appends a system transcript entry, sends a `manual_stage_change` command and
shows a toast. -/
def goToNextStage (sys : SysState) (transportErr : Option String) :
    SysState × List String :=
  let idx := jsIndexOf STAGES sys.app.currentStage
  if idx < (STAGES.length : Int) - 1 then
    let nextStage := STAGES.getD (idx + 1).toNat ""
    let app0 := { sys.app with currentStage := nextStage }
    let sysMsg : TranscriptMessage :=
      { id := "system-" ++ toString app0.clock
        text := "Moved to: " ++ stageLabel nextStage
        speaker := Speaker.system
        timestamp := app0.clock }
    let app1 := { app0 with
      transcript := app0.transcript ++ [sysMsg]
      clock := app0.clock + 1 }
    let sd := sendData sys.lk (Command.manualStageChange nextStage) transportErr
    let app2 := { app1 with
      toasts := app1.toasts ++ [Toast.mk "Next Stage" ("Moved to " ++ jsReplaceUnderscore nextStage)] }
    ({ lk := sd.1, app := app2 }, sd.2)
  else (sys, [])

/-- `goToPreviousStage` of AgentInterface: backward walk guarded by
`currentIndex > 0`. -/
def goToPreviousStage (sys : SysState) (transportErr : Option String) :
    SysState × List String :=
  let idx := jsIndexOf STAGES sys.app.currentStage
  if idx > 0 then
    let previousStage := STAGES.getD (idx - 1).toNat ""
    let app0 := { sys.app with currentStage := previousStage }
    let sysMsg : TranscriptMessage :=
      { id := "system-" ++ toString app0.clock
        text := "Moved back to: " ++ stageLabel previousStage
        speaker := Speaker.system
        timestamp := app0.clock }
    let app1 := { app0 with
      transcript := app0.transcript ++ [sysMsg]
      clock := app0.clock + 1 }
    let sd := sendData sys.lk (Command.manualStageChange previousStage) transportErr
    let app2 := { app1 with
      toasts := app1.toasts ++
        [Toast.mk "Previous Stage" ("Moved to " ++ jsReplaceUnderscore previousStage)] }
    ({ lk := sd.1, app := app2 }, sd.2)
  else (sys, [])

/-- A user stage-navigation click, with the transport outcome of the
notification publish it triggers. -/
inductive NavCall
  | next (transportErr : Option String)
  | previous (transportErr : Option String)
deriving DecidableEq, Repr

/-- One navigation click applied to the client state. -/
def navStep (sys : SysState) : NavCall → SysState
  | NavCall.next t => (goToNextStage sys t).1
  | NavCall.previous t => (goToPreviousStage sys t).1

/-- A sequence of navigation clicks. -/
def runNav (sys : SysState) (calls : List NavCall) : SysState :=
  calls.foldl navStep sys

/-- Initial hook state (`useState` initializers of useLiveKit). -/
def initLK : LKState :=
  { hasRoom := false, isConnected := false, isConnecting := false,
    participants := [], audioTracks := [], messages := [], error := none }

/-- Initial component state (`useState` initializers of AgentInterface). -/
def initApp : AppState :=
  { currentStage := "GREETING", transcript := [], isAgentSpeaking := false,
    isMuted := false, audioEnabled := true, isPaymentProcessing := false,
    toasts := [], clock := 0 }

/-- Initial combined client state. -/
def initSys : SysState := { lk := initLK, app := initApp }

/-- An inbound `state_update` message carrying a stage. -/
def mkStateUpdate (st : String) : LiveKitMessage :=
  { type := "state_update", stage := some st }

/-- An inbound `transcript_update` message with the given text and flags. -/
def mkTranscriptUpdate (t : String) (p : Bool) : LiveKitMessage :=
  { type := "transcript_update", transcript := some t, dataIsPartial := some p }

/-- The agent transcript entry built by the `transcript_update` case of
`handleLiveKitMessage` at a given clock value. -/
def agentEntry (clock : Nat) (t : String) (p : Bool) : TranscriptMessage :=
  { id := "transcript-" ++ toString clock, text := t,
    speaker := Speaker.agent, timestamp := clock, isPartial := p }

/-- Helper: `getLast?` of a cons in terms of the tail. -/
theorem getLast?_cons_getD (p : String) (rest : List String) :
    (p :: rest).getLast? = some (rest.getLast?.getD p) := by
  induction rest generalizing p with
  | nil => rfl
  | cons q qs ih => rw [List.getLast?_cons_cons, ih]; simp [ih]

/-- Helper: `jsIndexOf` returns -1 exactly on absent elements. -/
theorem jsIndexOf_eq_neg_one (l : List String) (x : String) (h : x ∉ l) :
    jsIndexOf l x = -1 := by
  induction l with
  | nil => rfl
  | cons a rest ih =>
    simp only [List.mem_cons, not_or] at h
    have hne : ¬ a = x := fun hax => h.1 hax.symm
    simp [jsIndexOf, hne, ih h.2]

/-- Helper: a partial `transcript_update` whose text is non-empty replaces the
trailing transcript entry when that entry is partial. -/
theorem handle_partial_replace (s : AppState) (t : String) (ht : t ≠ "")
    (hlp : lastIsPartial s.transcript = true) :
    handleLiveKitMessage s (mkTranscriptUpdate t true) =
      { s with
        transcript := s.transcript.dropLast ++ [agentEntry s.clock t true],
        isAgentSpeaking := false,
        clock := s.clock + 1 } := by
  simp [handleLiveKitMessage, mkTranscriptUpdate, agentEntry, ht, hlp]

/-- Helper: a `transcript_update` whose text is non-empty appends an entry
whenever the replace condition fails. -/
theorem handle_partial_append (s : AppState) (t : String) (p : Bool) (ht : t ≠ "")
    (hcond : (p && lastIsPartial s.transcript) = false) :
    handleLiveKitMessage s (mkTranscriptUpdate t p) =
      { s with
        transcript := s.transcript ++ [agentEntry s.clock t p],
        isAgentSpeaking := false,
        clock := s.clock + 1 } := by
  simp [handleLiveKitMessage, mkTranscriptUpdate, agentEntry, ht, hcond]

/-- Helper: a chain of partial `transcript_update` messages repeatedly
replaces the trailing partial entry, leaving exactly one trailing entry whose
text is the last partial's text (or the original entry's when the chain is
empty). -/
theorem processEach_partials (ps : List String) :
    ∀ (s : AppState) (T : List TranscriptMessage) (e : TranscriptMessage),
      (∀ t ∈ ps, t ≠ "") → s.transcript = T ++ [e] → e.isPartial = true →
      ∃ e' : TranscriptMessage,
        (processEach s (ps.map (fun t => mkTranscriptUpdate t true))).transcript
          = T ++ [e'] ∧
        e'.isPartial = true ∧ e'.text = ps.getLast?.getD e.text := by
  induction ps with
  | nil =>
    intro s T e _ hT hp
    exact ⟨e, by simpa [processEach] using hT, hp, rfl⟩
  | cons p rest ih =>
    intro s T e hne hT hp
    have hpne : p ≠ "" := hne p (List.mem_cons_self p rest)
    have hlp : lastIsPartial s.transcript = true := by
      rw [hT]; simp [lastIsPartial, List.getLast?_concat, hp]
    have hstep := handle_partial_replace s p hpne hlp
    have htrans : (handleLiveKitMessage s (mkTranscriptUpdate p true)).transcript =
        T ++ [agentEntry s.clock p true] := by
      rw [hstep]; simp [hT, List.dropLast_concat]
    obtain ⟨e', h1, h2, h3⟩ := ih (handleLiveKitMessage s (mkTranscriptUpdate p true)) T
      (agentEntry s.clock p true)
      (fun t htm => hne t (List.mem_cons_of_mem p htm)) htrans rfl
    refine ⟨e', h1, h2, ?_⟩
    rw [h3, getLast?_cons_getD]
    simp [agentEntry]

/-- C1 (counterexample): the claim "the transcript contains exactly one entry
for that run" is false on the code.  For the run of one partial message "a"
followed by the non-partial message "ab" (same speaker: both are agent
`transcript_update`s), the handler appends the final message instead of
replacing the trailing partial, so the transcript holds two entries, not
one. -/
theorem transcript_run_counterexample :
    (processEach initApp
        [mkTranscriptUpdate "a" true, mkTranscriptUpdate "ab" false]).transcript.length = 2 ∧
    (processEach initApp
        [mkTranscriptUpdate "a" true, mkTranscriptUpdate "ab" false]).transcript.length ≠ 1 := by
  constructor <;> decide

/-- C1 (amended): for a run of partial `transcript_update` messages followed
by one non-partial message, all with non-empty texts, processed from a state
without a trailing partial entry, the transcript gains the last partial's
entry (when the run has any partials) plus the final entry — two entries, not
one (one entry only when the run is the final message alone); the last added
entry's text equals the last message's text, and every earlier added entry is
the coalesced last partial. -/
theorem transcript_run_amended (ps : List String) (f : String) (s : AppState)
    (hps : ∀ t ∈ ps, t ≠ "") (hf : f ≠ "")
    (hlast : lastIsPartial s.transcript = false) :
    ∃ added : List TranscriptMessage,
      (processEach s (ps.map (fun t => mkTranscriptUpdate t true)
          ++ [mkTranscriptUpdate f false])).transcript = s.transcript ++ added ∧
      added.length = (if ps = [] then 1 else 2) ∧
      (∃ efin : TranscriptMessage, added.getLast? = some efin ∧
        efin.text = f ∧ efin.isPartial = false) ∧
      (∀ ep ∈ added.dropLast, ep.isPartial = true ∧ some ep.text = ps.getLast?) := by
  have hsplit : processEach s (ps.map (fun t => mkTranscriptUpdate t true)
      ++ [mkTranscriptUpdate f false]) =
    handleLiveKitMessage
      (processEach s (ps.map (fun t => mkTranscriptUpdate t true)))
      (mkTranscriptUpdate f false) := by
    simp [processEach, List.foldl_append]
  cases ps with
  | nil =>
    refine ⟨[agentEntry s.clock f false], ?_, by simp, ?_, by simp⟩
    · rw [hsplit]
      have hfin := handle_partial_append s f false hf (by simp)
      simp only [List.map_nil, processEach, List.foldl_nil]
      rw [hfin]
    · exact ⟨agentEntry s.clock f false, rfl, rfl, rfl⟩
  | cons p rest =>
    have hpne : p ≠ "" := hps p (List.mem_cons_self p rest)
    have hcond : (true && lastIsPartial s.transcript) = false := by rw [hlast]; rfl
    have hstep := handle_partial_append s p true hpne hcond
    have htrans : (handleLiveKitMessage s (mkTranscriptUpdate p true)).transcript =
        s.transcript ++ [agentEntry s.clock p true] := by
      rw [hstep]
    obtain ⟨e', h1, h2, h3⟩ := processEach_partials rest
      (handleLiveKitMessage s (mkTranscriptUpdate p true)) s.transcript
      (agentEntry s.clock p true)
      (fun t htm => hps t (List.mem_cons_of_mem p htm)) htrans rfl
    have hfold : processEach s (((p :: rest).map (fun t => mkTranscriptUpdate t true)))
        = processEach (handleLiveKitMessage s (mkTranscriptUpdate p true))
            (rest.map (fun t => mkTranscriptUpdate t true)) := rfl
    have hs2t : (processEach s (((p :: rest).map
        (fun t => mkTranscriptUpdate t true)))).transcript = s.transcript ++ [e'] := by
      rw [hfold]; exact h1
    have hfin := handle_partial_append
      (processEach s (((p :: rest).map (fun t => mkTranscriptUpdate t true)))) f false hf (by simp)
    refine ⟨[e', agentEntry (processEach s (((p :: rest).map
        (fun t => mkTranscriptUpdate t true)))).clock f false], ?_, by simp, ?_, ?_⟩
    · rw [hsplit, hfin]
      simp only [List.map_cons] at hs2t ⊢
      rw [hs2t, List.append_assoc]
      rfl
    · exact ⟨agentEntry (processEach s (((p :: rest).map
        (fun t => mkTranscriptUpdate t true)))).clock f false, rfl, rfl, rfl⟩
    · intro ep hep
      have hep' : ep ∈ [e'] := hep
      rw [List.mem_singleton] at hep'
      subst hep'
      refine ⟨h2, ?_⟩
      rw [h3, getLast?_cons_getD]
      simp [agentEntry]

/-- C1 (witness): the amended statement instantiated at the run
partial "a", final "ab", from the initial application state. -/
theorem transcript_run_amended_witness :
    (∀ t ∈ ["a"], t ≠ "") ∧ ("ab" ≠ "") ∧ lastIsPartial initApp.transcript = false ∧
    (∃ added : List TranscriptMessage,
      (processEach initApp (["a"].map (fun t => mkTranscriptUpdate t true)
          ++ [mkTranscriptUpdate "ab" false])).transcript = initApp.transcript ++ added ∧
      added.length = (if ["a"] = ([] : List String) then 1 else 2) ∧
      (∃ efin : TranscriptMessage, added.getLast? = some efin ∧
        efin.text = "ab" ∧ efin.isPartial = false) ∧
      (∀ ep ∈ added.dropLast, ep.isPartial = true ∧ some ep.text = ["a"].getLast?)) :=
  ⟨by decide, by decide, rfl,
    transcript_run_amended ["a"] "ab" initApp (by decide) (by decide) rfl⟩

/-- C2 (code bug evidence): with the messages effect re-running the handler
over the whole accumulated array, the GREETING→PAYMENT_SELECTION
`state_update` does add exactly one system entry "Stage updated: payment
selection" when it is the only message; but as soon as one further message
arrives, the `state_update` is processed again and the transcript holds two
such system entries — inbound messages are not each processed exactly
once. -/
theorem state_update_reprocessed :
    ((receiveMessage initSys (mkStateUpdate "PAYMENT_SELECTION")).app.transcript.filter
        (fun e => e.text = "Stage updated: payment selection")).length = 1 ∧
    ((receiveMessage (receiveMessage initSys (mkStateUpdate "PAYMENT_SELECTION"))
          (mkTranscriptUpdate "hello" false)).app.transcript.filter
        (fun e => e.text = "Stage updated: payment selection")).length = 2 := by
  constructor <;> rfl

/-- C3 helper: one forward click keeps the current stage inside STAGES. -/
theorem goToNextStage_stage_mem (sys : SysState) (terr : Option String)
    (h : sys.app.currentStage ∈ STAGES) :
    (goToNextStage sys terr).1.app.currentStage ∈ STAGES := by
  have h4 : sys.app.currentStage = "GREETING" ∨ sys.app.currentStage = "PAYMENT_SELECTION" ∨
      sys.app.currentStage = "NBFC_PROCESS" ∨ sys.app.currentStage = "RCA_DOCS" := by
    simpa [STAGES] using h
  rcases h4 with h4 | h4 | h4 | h4 <;>
    simp [goToNextStage, h4, jsIndexOf, STAGES]

/-- C3 helper: one backward click keeps the current stage inside STAGES. -/
theorem goToPreviousStage_stage_mem (sys : SysState) (terr : Option String)
    (h : sys.app.currentStage ∈ STAGES) :
    (goToPreviousStage sys terr).1.app.currentStage ∈ STAGES := by
  have h4 : sys.app.currentStage = "GREETING" ∨ sys.app.currentStage = "PAYMENT_SELECTION" ∨
      sys.app.currentStage = "NBFC_PROCESS" ∨ sys.app.currentStage = "RCA_DOCS" := by
    simpa [STAGES] using h
  rcases h4 with h4 | h4 | h4 | h4 <;>
    simp [goToPreviousStage, h4, jsIndexOf, STAGES]

/-- C3 helper: any navigation click preserves stage membership. -/
theorem navStep_stage_mem (sys : SysState) (c : NavCall)
    (h : sys.app.currentStage ∈ STAGES) :
    (navStep sys c).app.currentStage ∈ STAGES := by
  cases c with
  | next t => exact goToNextStage_stage_mem sys t h
  | previous t => exact goToPreviousStage_stage_mem sys t h

/-- C3 helper: any sequence of navigation clicks preserves stage
membership. -/
theorem runNav_stage_mem (calls : List NavCall) (sys : SysState)
    (h : sys.app.currentStage ∈ STAGES) :
    (runNav sys calls).app.currentStage ∈ STAGES := by
  induction calls generalizing sys with
  | nil => exact h
  | cons c cs ih => exact ih _ (navStep_stage_mem sys c h)

/-- C3: starting from the initial stage, any sequence of next/previous calls
keeps the current stage in the four fixed stages; previous() at the first
stage (GREETING) and next() at the last stage (RCA_DOCS) are complete no-ops
(no state change, no publish). -/
theorem stage_navigation_bounded (calls : List NavCall) :
    (runNav initSys calls).app.currentStage ∈ STAGES ∧
    (∀ (sys : SysState) (terr : Option String),
      sys.app.currentStage = "GREETING" → goToPreviousStage sys terr = (sys, [])) ∧
    (∀ (sys : SysState) (terr : Option String),
      sys.app.currentStage = "RCA_DOCS" → goToNextStage sys terr = (sys, [])) := by
  refine ⟨runNav_stage_mem calls initSys (by decide), ?_, ?_⟩
  · intro sys terr h
    simp [goToPreviousStage, h, jsIndexOf, STAGES]
  · intro sys terr h
    simp [goToNextStage, h, jsIndexOf, STAGES]

/-- C3 (witness): the bounded-navigation theorem applied to a concrete click
sequence and to the initial state, which sits at the first stage. -/
theorem stage_navigation_bounded_witness :
    (runNav initSys [NavCall.next none, NavCall.previous none]).app.currentStage ∈ STAGES ∧
    goToPreviousStage initSys none = (initSys, []) := by
  have h := stage_navigation_bounded [NavCall.next none, NavCall.previous none]
  exact ⟨h.1, h.2.1 initSys none rfl⟩

/-- C4 (counterexample): the claim says disconnect() appends a synthetic
"disconnected" status message from any prior state; but from the initial
state (no room ever created) `disconnect` is a complete no-op: the message
list stays empty, so no status message is appended. -/
theorem disconnect_noop_counterexample :
    disconnect initLK = initLK ∧ (disconnect initLK).messages = [] := by
  constructor <;> rfl

/-- C4 (amended): `disconnect()` from a state that holds a room leaves the
connection disconnected, clears the participant and audio-track lists, and
appends the synthetic "disconnected" status message; from a state without a
room it is a no-op (nothing changes and no message is appended). -/
theorem disconnect_amended (s : LKState) :
    (s.hasRoom = true →
      (disconnect s).isConnected = false ∧
      (disconnect s).participants = [] ∧
      (disconnect s).audioTracks = [] ∧
      (disconnect s).messages = s.messages ++ [statusMsg "disconnected"]) ∧
    (s.hasRoom = false → disconnect s = s) := by
  constructor <;> intro h <;> simp [disconnect, h]

/-- C4 (witness): the amended statement applied to the state reached by a
successful connect, which holds a room. -/
theorem disconnect_amended_witness :
    (connect initLK (ConnectOutcome.success [])).hasRoom = true ∧
    ((disconnect (connect initLK (ConnectOutcome.success []))).isConnected = false ∧
      (disconnect (connect initLK (ConnectOutcome.success []))).participants = [] ∧
      (disconnect (connect initLK (ConnectOutcome.success []))).audioTracks = [] ∧
      (disconnect (connect initLK (ConnectOutcome.success []))).messages =
        (connect initLK (ConnectOutcome.success [])).messages ++ [statusMsg "disconnected"]) :=
  ⟨rfl, (disconnect_amended (connect initLK (ConnectOutcome.success []))).1 rfl⟩

/-- C5: calling the outbound sender while not connected performs no publish
attempt and changes no state: the call returns normally with the state
unchanged and an empty list of publish attempts (the source logs a warning
and returns). -/
theorem sendData_not_connected (s : LKState) (cmd : Command) (terr : Option String)
    (h : s.isConnected = false) : sendData s cmd terr = (s, []) := by
  simp [sendData, h]

/-- C5 (witness): the disconnected-sender theorem applied to the initial hook
state and a payment command. -/
theorem sendData_not_connected_witness :
    initLK.isConnected = false ∧
    sendData initLK (Command.paymentChoice "nbfc_loan") none = (initLK, []) :=
  ⟨rfl, sendData_not_connected initLK (Command.paymentChoice "nbfc_loan") none rfl⟩

/-- C6: when the connection attempt fails, connect() stores a non-null error
string ("Connection failed: ..."), and once the call settles the state is
disconnected: isConnected is false and isConnecting is false.  The function
makes a single attempt; no retry happens inside the call. -/
theorem connect_failure_soft (s : LKState) (e : String)
    (h1 : s.isConnecting = false) (h2 : s.isConnected = false) :
    (connect s (ConnectOutcome.failure e)).error = some ("Connection failed: " ++ e) ∧
    (connect s (ConnectOutcome.failure e)).isConnected = false ∧
    (connect s (ConnectOutcome.failure e)).isConnecting = false := by
  simp [connect, h1, h2]

/-- C6 (witness): the failing-connect theorem applied to the initial hook
state and the error "boom". -/
theorem connect_failure_soft_witness :
    initLK.isConnecting = false ∧ initLK.isConnected = false ∧
    ((connect initLK (ConnectOutcome.failure "boom")).error =
        some ("Connection failed: " ++ "boom") ∧
      (connect initLK (ConnectOutcome.failure "boom")).isConnected = false ∧
      (connect initLK (ConnectOutcome.failure "boom")).isConnecting = false) :=
  ⟨rfl, rfl, connect_failure_soft initLK "boom" rfl rfl⟩

/-- C7: connect() is a no-op when already connecting or connected: the state
is returned unchanged whatever the attempt outcome would have been (no room
creation, no listeners, no state change). -/
theorem connect_already_active (s : LKState) (o : ConnectOutcome)
    (h : s.isConnecting = true ∨ s.isConnected = true) : connect s o = s := by
  rcases h with h | h <;> simp [connect, h]

/-- C7 (witness): the idempotence theorem applied to a concrete state already
in the connecting phase. -/
theorem connect_already_active_witness :
    ({ initLK with isConnecting := true } : LKState).isConnecting = true ∧
    connect { initLK with isConnecting := true } (ConnectOutcome.failure "boom") =
      { initLK with isConnecting := true } :=
  ⟨rfl, connect_already_active { initLK with isConnecting := true }
    (ConnectOutcome.failure "boom") (Or.inl rfl)⟩

/-- C8: a raw inbound payload that fails to decode is dropped: the
DataReceived handler leaves the hook state unchanged, and at the full client
no application state (messages, transcript, stage, flags) changes either. -/
theorem malformed_payload_dropped (sys : SysState) (s : LKState) :
    onDataReceived s none = s ∧ receiveRaw sys none = sys :=
  ⟨rfl, rfl⟩

/-- C9: selecting payment option "nbfc_loan" while connected publishes exactly
the serialized command with type "payment_choice" and selection "nbfc_loan"
over the data channel, and appends exactly one user-speaker transcript entry
whose text mentions "nbfc loan". -/
theorem payment_select_connected (sys : SysState)
    (hroom : sys.lk.hasRoom = true) (hconn : sys.lk.isConnected = true) :
    (handlePaymentSelect sys "nbfc_loan" none).2 =
      ["\x7b\"type\":\"payment_choice\",\"selection\":\"nbfc_loan\"\x7d"] ∧
    ∃ e : TranscriptMessage,
      (handlePaymentSelect sys "nbfc_loan" none).1.app.transcript =
        sys.app.transcript ++ [e] ∧
      e.speaker = Speaker.user ∧
      e.text = "Selected payment method: nbfc loan" ∧
      ∃ pre post : String, e.text = pre ++ "nbfc loan" ++ post := by
  refine ⟨?_, ?_⟩
  · simp [handlePaymentSelect, sendData, hroom, hconn, serializeCommand]
  · exact ⟨{ id := "user-" ++ toString sys.app.clock,
             text := "Selected payment method: nbfc loan",
             speaker := Speaker.user, timestamp := sys.app.clock },
           rfl, rfl, rfl, "Selected payment method: ", "", rfl⟩

/-- C9 (witness): the payment-selection theorem applied to a concrete
connected client state. -/
theorem payment_select_connected_witness :
    (SysState.mk { initLK with hasRoom := true, isConnected := true } initApp).lk.hasRoom = true ∧
    (SysState.mk { initLK with hasRoom := true, isConnected := true } initApp).lk.isConnected = true ∧
    ((handlePaymentSelect
          (SysState.mk { initLK with hasRoom := true, isConnected := true } initApp)
          "nbfc_loan" none).2 =
        ["\x7b\"type\":\"payment_choice\",\"selection\":\"nbfc_loan\"\x7d"] ∧
      ∃ e : TranscriptMessage,
        (handlePaymentSelect
            (SysState.mk { initLK with hasRoom := true, isConnected := true } initApp)
            "nbfc_loan" none).1.app.transcript =
          (SysState.mk { initLK with hasRoom := true, isConnected := true } initApp).app.transcript
            ++ [e] ∧
        e.speaker = Speaker.user ∧
        e.text = "Selected payment method: nbfc loan" ∧
        ∃ pre post : String, e.text = pre ++ "nbfc loan" ++ post) :=
  ⟨rfl, rfl, payment_select_connected
    (SysState.mk { initLK with hasRoom := true, isConnected := true } initApp) rfl rfl⟩

/-- C10 helper: forward navigation from a stage that is not in STAGES lands
on the first stage, because indexOf yields -1 and the guard -1 < 3 passes. -/
theorem goToNextStage_unknown_stage (sys : SysState) (terr : Option String)
    (h : jsIndexOf STAGES sys.app.currentStage = -1) :
    (goToNextStage sys terr).1.app.currentStage = "GREETING" := by
  simp only [goToNextStage, h]
  norm_num [STAGES]

/-- C10: an inbound `state_update` sets the current stage to the carried
string without validating membership in STAGES, so the stage can leave the
fixed sequence; from such a stage the next indexOf-based forward navigation
moves to the first stage, GREETING. -/
theorem unvalidated_stage_accepted (app : AppState) (lk : LKState) (st : String)
    (terr : Option String) (hmem : st ∉ STAGES) (hne : st ≠ "") :
    (handleLiveKitMessage app (mkStateUpdate st)).currentStage = st ∧
    (goToNextStage
        (SysState.mk lk (handleLiveKitMessage app (mkStateUpdate st)))
        terr).1.app.currentStage = "GREETING" := by
  have hcur : (handleLiveKitMessage app (mkStateUpdate st)).currentStage = st := by
    simp [handleLiveKitMessage, mkStateUpdate, hne]
  have hidx : jsIndexOf STAGES
      (SysState.mk lk (handleLiveKitMessage app (mkStateUpdate st))).app.currentStage = -1 := by
    rw [show (SysState.mk lk (handleLiveKitMessage app (mkStateUpdate st))).app.currentStage
        = st from hcur]
    exact jsIndexOf_eq_neg_one STAGES st hmem
  exact ⟨hcur, goToNextStage_unknown_stage _ terr hidx⟩

/-- C10 (witness): the unvalidated-stage theorem applied to the stage string
"WEIRD", which lies outside STAGES. -/
theorem unvalidated_stage_accepted_witness :
    ("WEIRD" ∉ STAGES) ∧ ("WEIRD" ≠ "") ∧
    ((handleLiveKitMessage initApp (mkStateUpdate "WEIRD")).currentStage = "WEIRD" ∧
      (goToNextStage
          (SysState.mk initLK (handleLiveKitMessage initApp (mkStateUpdate "WEIRD")))
          none).1.app.currentStage = "GREETING") :=
  ⟨by decide, by decide,
    unvalidated_stage_accepted initApp initLK "WEIRD" none (by decide) (by decide)⟩

end InteractVoice
